import Mathlib

/-!
Verification of the "refine" document-combination strategy
(`langchain/chains/combine_documents/refine.py`).

The source contains two variants of the same sequential-refinement
algorithm:

* the legacy imperative `RefineDocumentsChain` (`combine_docs` loop,
  `_construct_initial_inputs`, `_construct_refine_inputs`,
  `_construct_result`, pydantic construction-time validators), and
* the declarative LCEL chain built by `create_refine_documents_chain`
  from the helper runnables `_get_and_format_doc`, `_runnable_loop` and
  `_update_intermediate_steps`.

Python dictionaries are embedded as association lists with Python's
update semantics (`dictInsert` replaces an existing key in place,
`dictMerge a b` is `{**a, **b}`).  Fallible operations return
`Except Err`.  The external model capability ("given named inputs,
return generated text, or raise") is a parameter of type
`Dict String → Except Err String`; the run of the imperative loop is
instrumented with an explicit log of the completed model invocations,
which in the source are the side effects of `predict` calls.
-/

/-- A Python `dict` with `String` keys, as an association list.
Lookups return the first matching entry; all construction operations
below preserve the no-duplicate-key invariant of Python dicts. -/
abbrev Dict (α : Type) : Type := List (String × α)

/-- `d[k]` lookup: first entry whose key equals `k`. -/
def dictLookup {α : Type} : Dict α → String → Option α
  | [], _ => none
  | (k0, v0) :: rest, k => if k0 = k then some v0 else dictLookup rest k

/-- Python `d[k] = v`: replace the value of an existing key in place,
otherwise append the new entry at the end. -/
def dictInsert {α : Type} : Dict α → String → α → Dict α
  | [], k, v => [(k, v)]
  | (k0, v0) :: rest, k, v =>
    if k0 = k then (k0, v) :: rest else (k0, v0) :: dictInsert rest k v

/-- Python `d.pop(k)` (the removal part): drop the first entry with key `k`. -/
def dictErase {α : Type} : Dict α → String → Dict α
  | [], _ => []
  | (k0, v0) :: rest, k => if k0 = k then rest else (k0, v0) :: dictErase rest k

/-- Python `{**a, **b}` / `a.update(b)`: entries of `b` override entries
of `a` with the same key. -/
def dictMerge {α : Type} (a b : Dict α) : Dict α :=
  b.foldl (fun acc kv => dictInsert acc kv.1 kv.2) a

/-- The keys of the dict are pairwise distinct (true of every Python dict). -/
def DictNodupKeys {α : Type} (d : Dict α) : Prop := (d.map Prod.fst).Nodup

instance {α : Type} (d : Dict α) : Decidable (DictNodupKeys d) := by
  unfold DictNodupKeys; infer_instance

/-- Errors raised by the embedded code: Python `KeyError`, `IndexError`,
`TypeError`, `ValueError`, and errors raised by the external model
capability. -/
inductive Err where
  | keyError (k : String)
  | indexError
  | typeError (k : String)
  | valueError (msg : String)
  | modelError (msg : String)
deriving DecidableEq, Repr

/-- `langchain_core.documents.Document`: opaque text content plus named
metadata.  Metadata values are kept as strings (the only use the code
makes of them is to substitute them into a document prompt). -/
structure Document where
  page_content : String
  metadata : Dict String
deriving DecidableEq, Repr

/-- Modelled from the spec: the prompt-template capability — "a named
set of required input variables plus a formatting function; immutable"
("prompt template formatting (a capability: given a mapping of named
values, returns formatted text, validated against a required-variable
set)"). -/
structure PromptTemplate where
  input_variables : List String
  format : Dict String → String

/-- The key under which the caller supplies the document list
(`DOCUMENTS_KEY` from `combine_documents/base.py`; the source docstring
documents it as `"context"`). -/
def DOCUMENTS_KEY : String := "context"

/-- `INTERMEDIATE_STEPS_KEY` from `combine_documents/base.py`:
`"intermediate_steps"`. -/
def INTERMEDIATE_STEPS_KEY : String := "intermediate_steps"

/-- `OUTPUT_KEY = "output"` (source line 30). -/
def OUTPUT_KEY : String := "output"

/-- Modelled from the spec: `DEFAULT_DOCUMENT_PROMPT` from
`combine_documents/base.py` — "Default to a prompt that only contains
`Document.page_content`" (source docstring, lines 51-56). -/
def DEFAULT_DOCUMENT_PROMPT : PromptTemplate :=
  { input_variables := ["page_content"],
    format := fun d => (dictLookup d "page_content").getD "" }

/-- The Python dict comprehension
`{k: base_info[k] for k in input_variables}`: selects the listed keys in
order, raising `KeyError` at the first missing one. -/
def selectKeys : List String → Dict String → Except Err (Dict String)
  | [], _ => Except.ok []
  | k :: ks, d =>
    match dictLookup d k with
    | none => Except.error (Err.keyError k)
    | some v =>
      match selectKeys ks d with
      | Except.error e => Except.error e
      | Except.ok rest => Except.ok ((k, v) :: rest)

/-- Modelled from the spec: the document-formatting capability
`format_document(doc, prompt)` of `langchain_core.prompts` ("Document
Formatter: turns one document + a formatting template into a single
text blob").  It builds `{"page_content": ..., **metadata}`, selects the
prompt's input variables (raising on a missing one), and formats.  The
source of `_construct_initial_inputs` (lines 338-342) inlines exactly
these steps. -/
def formatDocument (p : PromptTemplate) (d : Document) : Except Err String :=
  match selectKeys p.input_variables
      (dictMerge [("page_content", d.page_content)] d.metadata) with
  | Except.error e => Except.error e
  | Except.ok info => Except.ok (p.format info)

/-- One completed model invocation of the imperative loop: which chain
was called (`initial` or `refine`), with which merged inputs, and the
text it returned. -/
inductive CallRec where
  | initial (inputs : Dict String) (output : String)
  | refine (inputs : Dict String) (output : String)
deriving DecidableEq, Repr

/-- The legacy `RefineDocumentsChain` (source lines 158-349).  The two
LLM chains are the external model capability of the spec
("`invoke(formatted_text_and_named_inputs) -> generated_text`",
modelled from the spec since `LLMChain` is outside the target file):
fallible functions from named inputs to text. -/
structure RefineDocumentsChain where
  initial_llm_chain : Dict String → Except Err String
  refine_llm_chain : Dict String → Except Err String
  document_variable_name : String
  initial_response_name : String
  document_prompt : PromptTemplate
  return_intermediate_steps : Bool

namespace RefineDocumentsChain

/-- Source lines 335-345: format document 0 inline (raising `IndexError`
on an empty list, `KeyError` on a missing prompt variable), put the text
under `document_variable_name`, then merge the caller's extra kwargs
over it (`{**base_inputs, **kwargs}`). -/
def _construct_initial_inputs (c : RefineDocumentsChain)
    (docs : List Document) (kwargs : Dict String) : Except Err (Dict String) :=
  match docs with
  | [] => Except.error Err.indexError
  | d0 :: _ =>
    match formatDocument c.document_prompt d0 with
    | Except.error e => Except.error e
    | Except.ok s =>
      Except.ok (dictMerge (dictInsert [] c.document_variable_name s) kwargs)

/-- Source lines 329-333: the refine step's base inputs — the formatted
document under `document_variable_name` and the prior answer under
`initial_response_name`. -/
def _construct_refine_inputs (c : RefineDocumentsChain) (doc : Document)
    (res : String) : Except Err (Dict String) :=
  match formatDocument c.document_prompt doc with
  | Except.error e => Except.error e
  | Except.ok s =>
    Except.ok (dictInsert (dictInsert [] c.document_variable_name s)
      c.initial_response_name res)

/-- Source lines 322-327: the result assembler — always the final text,
plus `{"intermediate_steps": refine_steps}` only when
`return_intermediate_steps` is set, otherwise an empty extra dict. -/
def _construct_result (c : RefineDocumentsChain) (refine_steps : List String)
    (res : String) : String × Dict (List String) :=
  if c.return_intermediate_steps then
    (res, [("intermediate_steps", refine_steps)])
  else
    (res, [])

/-- The `for doc in docs[1:]` loop of `combine_docs` (source lines
289-293), instrumented with the log of completed model invocations:
build the refine inputs, merge the caller kwargs over them, call the
refine model, collect its output.  A raised error aborts the loop and
surfaces with the log as it stood. -/
def combineLoop (c : RefineDocumentsChain) (kwargs : Dict String) :
    List Document → String → List String → List CallRec →
    Except Err (String × List String) × List CallRec
  | [], res, refine_steps, log => (Except.ok (res, refine_steps), log)
  | doc :: rest, res, refine_steps, log =>
    match c._construct_refine_inputs doc res with
    | Except.error e => (Except.error e, log)
    | Except.ok base_inputs =>
      match c.refine_llm_chain (dictMerge base_inputs kwargs) with
      | Except.error e => (Except.error e, log)
      | Except.ok res2 =>
        combineLoop c kwargs rest res2 (refine_steps ++ [res2])
          (log ++ [CallRec.refine (dictMerge base_inputs kwargs) res2])

/-- `combine_docs` (source lines 271-294): initial inputs from document
0, one initial model call, then the refine loop over `docs[1:]`, and
finally `_construct_result`.  The second component is the log of
completed model invocations (the side effects of the `predict` calls). -/
def combine_docs (c : RefineDocumentsChain) (docs : List Document)
    (kwargs : Dict String) :
    Except Err (String × Dict (List String)) × List CallRec :=
  match c._construct_initial_inputs docs kwargs with
  | Except.error e => (Except.error e, [])
  | Except.ok inputs =>
    match c.initial_llm_chain inputs with
    | Except.error e => (Except.error e, [])
    | Except.ok res =>
      match c.combineLoop kwargs (docs.drop 1) res [res]
          [CallRec.initial inputs res] with
      | (Except.ok (res2, refine_steps), log) =>
        (Except.ok (c._construct_result refine_steps res2), log)
      | (Except.error e, log) => (Except.error e, log)

/-- `output_keys` (source lines 225-234): the base class's output key
plus `"intermediate_steps"` exactly when `return_intermediate_steps` is
set.  The base class's `output_keys` (`["output_text"]`) is modelled
from the spec ("always returns the final answer text"). -/
def output_keys (c : RefineDocumentsChain) : List String :=
  if c.return_intermediate_steps then
    ["output_text"] ++ ["intermediate_steps"]
  else
    ["output_text"]

end RefineDocumentsChain

/-- The pydantic `root_validator` `get_default_document_variable_name`
(source lines 250-269), run at construction: if no
`document_variable_name` was designated, infer it when the initial
chain's prompt has exactly one input variable and raise a `ValueError`
otherwise; if one was designated, raise a `ValueError` when it is not
among the prompt's input variables. -/
def get_default_document_variable_name (dvn : Option String)
    (llm_chain_variables : List String) : Except Err String :=
  match dvn with
  | none =>
    match llm_chain_variables with
    | [v] => Except.ok v
    | _ => Except.error (Err.valueError
        "document_variable_name must be provided if there are multiple llm_chain input_variables")
  | some v =>
    if v ∈ llm_chain_variables then Except.ok v
    else Except.error (Err.valueError
      "document_variable_name was not found in llm_chain input_variables")

/-- Construction of the imperative variant: the validator runs first
(pydantic `root_validator`, `pre=True`), so a validation error prevents
the chain from being built — no document is processed and no model is
invoked. -/
def mkRefineDocumentsChain (ic rc : Dict String → Except Err String)
    (initial_prompt_vars : List String) (dvn : Option String) (irn : String)
    (dp : PromptTemplate) (ris : Bool) : Except Err RefineDocumentsChain :=
  match get_default_document_variable_name dvn initial_prompt_vars with
  | Except.error e => Except.error e
  | Except.ok v =>
    Except.ok
      { initial_llm_chain := ic, refine_llm_chain := rc,
        document_variable_name := v, initial_response_name := irn,
        document_prompt := dp, return_intermediate_steps := ris }

/-!
## The declarative (LCEL) variant

`create_refine_documents_chain` (source lines 33-129) composes
runnables.  The runnable combinators live outside the target file, so
their semantics are modelled from the spec and their documented
behavior, with immutable value semantics on the input dictionary:

* `RunnablePassthrough.assign(k₁=r₁, …)` computes every `rᵢ` **on the
  same input dictionary** and merges the results over it;
* `a.pipe(b)` / `a | b` is sequential composition, an error short-circuits;
* `.pick(keys)` keeps only the listed keys that are present.

The dictionaries of this pipeline hold heterogeneous values (a document
list under `"context"` before formatting, strings after), embedded by
the sum type `Val`.
-/

/-- A value of the declarative pipeline's dictionaries: a string, a
document list, or a list of intermediate outputs. -/
inductive Val where
  | vstr (s : String)
  | vdocs (ds : List Document)
  | vstrs (ss : List String)
deriving DecidableEq, Repr

/-- The declarative chain as configured by
`create_refine_documents_chain`: the model capability (given a
formatted prompt text, returns generated text — `StrOutputParser` makes
the output a plain string), the two prompts, and the document prompt. -/
structure DeclChain where
  llm : String → Except Err String
  initial_prompt : PromptTemplate
  refine_prompt : PromptTemplate
  document_prompt : PromptTemplate

/-- The `inputs.pop(INTERMEDIATE_STEPS_KEY, [])` of
`_get_and_format_doc`: return the recorded intermediate steps (default
`[]` when the key is absent) and the dict without the key. -/
def popIntermediateSteps (inputs : Dict Val) :
    Except Err (List String × Dict Val) :=
  match dictLookup inputs INTERMEDIATE_STEPS_KEY with
  | none => Except.ok ([], inputs)
  | some (Val.vstrs ss) =>
    Except.ok (ss, dictErase inputs INTERMEDIATE_STEPS_KEY)
  | some _ => Except.error (Err.typeError INTERMEDIATE_STEPS_KEY)

/-- `_get_and_format_doc` (source lines 135-139): pop the intermediate
steps, pick the document at index `len(intermediate_steps)` (raising
`IndexError` past the end), format it, and store the formatted text
back under `DOCUMENTS_KEY`. -/
def _get_and_format_doc (document_prompt : PromptTemplate)
    (inputs : Dict Val) : Except Err (Dict Val) :=
  match popIntermediateSteps inputs with
  | Except.error e => Except.error e
  | Except.ok (intermediate_steps, inputs2) =>
    match dictLookup inputs2 DOCUMENTS_KEY with
    | none => Except.error (Err.keyError DOCUMENTS_KEY)
    | some (Val.vdocs ds) =>
      match ds.get? intermediate_steps.length with
      | none => Except.error Err.indexError
      | some doc =>
        match formatDocument document_prompt doc with
        | Except.error e => Except.error e
        | Except.ok s => Except.ok (dictInsert inputs2 DOCUMENTS_KEY (Val.vstr s))
    | some _ => Except.error (Err.typeError DOCUMENTS_KEY)

/-- Modelled from the spec: a prompt runnable invoked on a pipeline
dictionary — validate that every required input variable is present (and
a string), then format. -/
def promptInvoke (p : PromptTemplate) (inputs : Dict Val) :
    Except Err String :=
  match (p.input_variables.mapM (fun k =>
      match dictLookup inputs k with
      | none => Except.error (Err.keyError k)
      | some (Val.vstr s) => Except.ok (k, s)
      | some _ => Except.error (Err.typeError k)) :
        Except Err (Dict String)) with
  | Except.error e => Except.error e
  | Except.ok pairs => Except.ok (p.format pairs)

/-- `initial_response` (source lines 101-103):
`format_doc | initial_prompt | llm | StrOutputParser()`. -/
def initial_response (dc : DeclChain) (inputs : Dict Val) :
    Except Err String :=
  match _get_and_format_doc dc.document_prompt inputs with
  | Except.error e => Except.error e
  | Except.ok d =>
    match promptInvoke dc.initial_prompt d with
    | Except.error e => Except.error e
    | Except.ok ptxt => dc.llm ptxt

/-- `refine_response` (source lines 107-109):
`format_doc | refine_prompt | llm | StrOutputParser()`. -/
def refine_response (dc : DeclChain) (inputs : Dict Val) :
    Except Err String :=
  match _get_and_format_doc dc.document_prompt inputs with
  | Except.error e => Except.error e
  | Except.ok d =>
    match promptInvoke dc.refine_prompt d with
    | Except.error e => Except.error e
    | Except.ok ptxt => dc.llm ptxt

/-- `_update_intermediate_steps` (source lines 151-152):
`inputs.get(INTERMEDIATE_STEPS_KEY, []) + [inputs[OUTPUT_KEY]]`. -/
def _update_intermediate_steps (inputs : Dict Val) :
    Except Err (List String) :=
  match dictLookup inputs INTERMEDIATE_STEPS_KEY with
  | some (Val.vstr _) => Except.error (Err.typeError INTERMEDIATE_STEPS_KEY)
  | some (Val.vdocs _) => Except.error (Err.typeError INTERMEDIATE_STEPS_KEY)
  | some (Val.vstrs prev) =>
    match dictLookup inputs OUTPUT_KEY with
    | some (Val.vstr out) => Except.ok (prev ++ [out])
    | some _ => Except.error (Err.typeError OUTPUT_KEY)
    | none => Except.error (Err.keyError OUTPUT_KEY)
  | none =>
    match dictLookup inputs OUTPUT_KEY with
    | some (Val.vstr out) => Except.ok ([] ++ [out])
    | some _ => Except.error (Err.typeError OUTPUT_KEY)
    | none => Except.error (Err.keyError OUTPUT_KEY)

/-- `refine_step` (source lines 113-116):
`RunnablePassthrough.assign(intermediate_steps=_update_intermediate_steps,
output=refine_response)` — both assigned values are computed from the
same incoming dictionary, then merged over it. -/
def refine_step (dc : DeclChain) (inputs : Dict Val) :
    Except Err (Dict Val) :=
  match _update_intermediate_steps inputs with
  | Except.error e => Except.error e
  | Except.ok is2 =>
    match refine_response dc inputs with
    | Except.error e => Except.error e
    | Except.ok out =>
      Except.ok (dictInsert
        (dictInsert inputs INTERMEDIATE_STEPS_KEY (Val.vstrs is2))
        OUTPUT_KEY (Val.vstr out))

/-- `n` chained copies of `refine_step`. -/
def iterSteps (dc : DeclChain) : Nat → Dict Val → Except Err (Dict Val)
  | 0, d => Except.ok d
  | n + 1, d =>
    match refine_step dc d with
    | Except.error e => Except.error e
    | Except.ok d2 => iterSteps dc n d2

/-- `_runnable_loop` (source lines 142-148): with fewer than two
documents, a passthrough; otherwise a sequence of `len(docs) - 1`
`refine_step`s (iterations `1 .. len(docs) - 1`). -/
def _runnable_loop (dc : DeclChain) (inputs : Dict Val) :
    Except Err (Dict Val) :=
  match dictLookup inputs DOCUMENTS_KEY with
  | none => Except.error (Err.keyError DOCUMENTS_KEY)
  | some (Val.vdocs ds) =>
    if ds.length < 2 then Except.ok inputs
    else iterSteps dc (ds.length - 1) inputs
  | some _ => Except.error (Err.typeError DOCUMENTS_KEY)

/-- Modelled from the spec: `.pick(keys)` — keep the listed keys that
are present in the dictionary. -/
def pickKeys (keys : List String) (d : Dict Val) : Dict Val :=
  keys.foldr
    (fun k acc =>
      match dictLookup d k with
      | some v => (k, v) :: acc
      | none => acc) []

/-- The runnable returned by `create_refine_documents_chain` (source
lines 124-129):
`RunnablePassthrough.assign(output=initial_response) | refine_loop |
pick([OUTPUT_KEY, INTERMEDIATE_STEPS_KEY])`. -/
def refine_documents_chain (dc : DeclChain) (inputs : Dict Val) :
    Except Err (Dict Val) :=
  match initial_response dc inputs with
  | Except.error e => Except.error e
  | Except.ok s0 =>
    match _runnable_loop dc (dictInsert inputs OUTPUT_KEY (Val.vstr s0)) with
    | Except.error e => Except.error e
    | Except.ok d2 => Except.ok (pickKeys [OUTPUT_KEY, INTERMEDIATE_STEPS_KEY] d2)

/-- Modelled from the spec: `validate_prompt(prompt, supplied)` of
`combine_documents/base.py` — "validated once at construction time
against the variable names this core will supply"; fails if the prompt
requires a variable the chain cannot supply. -/
def validate_prompt (p : PromptTemplate) (supplied : List String) :
    Except Err Unit :=
  if p.input_variables.all (fun v => supplied.contains v) then Except.ok ()
  else Except.error (Err.valueError "prompt is missing required input variables")

/-- `create_refine_documents_chain` (source lines 33-129): validate the
two prompts against the variables the chain supplies
(`DOCUMENTS_KEY`, and additionally `OUTPUT_KEY` for the refine prompt),
default the document prompt, and return the composed runnable's
configuration. -/
def create_refine_documents_chain (llm : String → Except Err String)
    (initial_prompt refine_prompt : PromptTemplate)
    (document_prompt : Option PromptTemplate) : Except Err DeclChain :=
  match validate_prompt initial_prompt [DOCUMENTS_KEY] with
  | Except.error e => Except.error e
  | Except.ok _ =>
    match validate_prompt refine_prompt [DOCUMENTS_KEY, OUTPUT_KEY] with
    | Except.error e => Except.error e
    | Except.ok _ =>
      Except.ok
        { llm := llm, initial_prompt := initial_prompt,
          refine_prompt := refine_prompt,
          document_prompt := document_prompt.getD DEFAULT_DOCUMENT_PROMPT }

/-!
## Dictionary lemmas
-/

theorem dictLookup_insert_self {α : Type} (d : Dict α) (k : String) (v : α) :
    dictLookup (dictInsert d k v) k = some v := by
  induction d with
  | nil => simp [dictInsert, dictLookup]
  | cons kv rest ih =>
    obtain ⟨k0, v0⟩ := kv
    by_cases h : k0 = k <;> simp [dictInsert, dictLookup, h, ih]

theorem dictLookup_insert_ne {α : Type} (d : Dict α) (k k2 : String) (v : α)
    (h : k ≠ k2) : dictLookup (dictInsert d k v) k2 = dictLookup d k2 := by
  induction d with
  | nil => simp [dictInsert, dictLookup, h]
  | cons kv rest ih =>
    obtain ⟨k0, v0⟩ := kv
    by_cases h0 : k0 = k
    · subst h0
      simp [dictInsert, dictLookup, h]
    · simp [dictInsert, dictLookup, h0, ih]

theorem dictLookup_eq_none_of_not_mem {α : Type} (d : Dict α) (k : String)
    (h : k ∉ d.map Prod.fst) : dictLookup d k = none := by
  induction d with
  | nil => simp [dictLookup]
  | cons kv rest ih =>
    obtain ⟨k0, v0⟩ := kv
    simp only [List.map_cons, List.mem_cons] at h
    push_neg at h
    have hne : k0 ≠ k := fun hk => h.1 hk.symm
    simp [dictLookup, hne, ih h.2]

theorem dictMerge_cons {α : Type} (a : Dict α) (k : String) (v : α) (b : Dict α) :
    dictMerge a ((k, v) :: b) = dictMerge (dictInsert a k v) b := rfl

/-- A key absent from the right dict keeps its left value under `{**a, **b}`. -/
theorem dictLookup_merge_right_none {α : Type} (b a : Dict α) (k : String)
    (h : dictLookup b k = none) :
    dictLookup (dictMerge a b) k = dictLookup a k := by
  induction b generalizing a with
  | nil => simp [dictMerge]
  | cons kv rest ih =>
    obtain ⟨k0, v0⟩ := kv
    simp only [dictLookup] at h
    by_cases h0 : k0 = k
    · simp [h0] at h
    · rw [dictMerge_cons, ih _ (by simpa [h0] using h),
        dictLookup_insert_ne _ _ _ _ h0]

/-- A key present in the right dict takes the right value under
`{**a, **b}` (for a right dict without duplicate keys, as every Python
dict is). -/
theorem dictLookup_merge_right_some {α : Type} (b : Dict α) :
    ∀ (a : Dict α) (k : String) (v : α), DictNodupKeys b →
      dictLookup b k = some v → dictLookup (dictMerge a b) k = some v := by
  induction b with
  | nil => intro a k v _ h; simp [dictLookup] at h
  | cons kv rest ih =>
    obtain ⟨k0, v0⟩ := kv
    intro a k v hnd h
    have hnd0 : (k0 :: rest.map Prod.fst).Nodup := hnd
    have hnd2 := List.nodup_cons.mp hnd0
    simp only [dictLookup] at h
    by_cases h0 : k0 = k
    · subst h0
      rw [if_pos rfl] at h
      injection h with h
      subst h
      rw [dictMerge_cons,
        dictLookup_merge_right_none _ _ _
          (dictLookup_eq_none_of_not_mem _ _ hnd2.1),
        dictLookup_insert_self]
    · rw [if_neg h0] at h
      rw [dictMerge_cons]
      exact ih _ _ _ hnd2.2 h

/-!
## Concrete capabilities used as witnesses and counterexamples

An "echo" model whose outputs serialize exactly which formatted document
and which prior answer each step received: the generated text is the
formatted prompt itself, so a run's outputs identify the documents
processed.
-/

/-- A document with the given content and no metadata. -/
def mkDoc (s : String) : Document := { page_content := s, metadata := [] }

/-- The identity model capability: returns the formatted prompt text. -/
def llmEx : String → Except Err String := fun s => Except.ok s

/-- Initial prompt: renders as `I:<document text>`. -/
def initPromptEx : PromptTemplate :=
  { input_variables := [DOCUMENTS_KEY],
    format := fun d => "I:" ++ (dictLookup d DOCUMENTS_KEY).getD "?" }

/-- Refine prompt: renders as `R(<document text>,<prior answer>)`. -/
def refinePromptEx : PromptTemplate :=
  { input_variables := [DOCUMENTS_KEY, OUTPUT_KEY],
    format := fun d => "R(" ++ (dictLookup d DOCUMENTS_KEY).getD "?" ++ ","
      ++ (dictLookup d OUTPUT_KEY).getD "?" ++ ")" }

/-- The declarative chain configured with the echo capabilities. -/
def declChainEx : DeclChain :=
  { llm := llmEx, initial_prompt := initPromptEx,
    refine_prompt := refinePromptEx,
    document_prompt := DEFAULT_DOCUMENT_PROMPT }

/-- The imperative chain configured with the corresponding echo
capabilities (`LLMChain.predict` = format the prompt with the inputs,
then call the model), with intermediate-step reporting enabled. -/
def impChainEx : RefineDocumentsChain :=
  { initial_llm_chain := fun d => llmEx (initPromptEx.format d),
    refine_llm_chain := fun d => llmEx (refinePromptEx.format d),
    document_variable_name := DOCUMENTS_KEY,
    initial_response_name := OUTPUT_KEY,
    document_prompt := DEFAULT_DOCUMENT_PROMPT,
    return_intermediate_steps := true }

/-- `impChainEx` with intermediate-step reporting disabled. -/
def impChainExNoSteps : RefineDocumentsChain :=
  { impChainEx with return_intermediate_steps := false }

/-!
## Reference left fold (spec side)

The spec describes the combine operation as a left fold: seed the
accumulator from document 0, then for each remaining document build the
refine inputs from that document and the current answer, call the model,
and carry the output forward.  The following definitions state that fold
in the spec's words, for comparison with `combine_docs`; they are
parametrized by total success behaviors `fI`/`fR` of the two model
capabilities and a formatting function `fmt`.
-/

/-- The merged inputs of a refine step: the formatted document under the
document-variable name, the prior answer under the prior-answer name,
and the caller's extra kwargs merged over them. -/
def refineStepInputs (dvn irn : String) (kwargs : Dict String)
    (fmtd prev : String) : Dict String :=
  dictMerge (dictInsert (dictInsert [] dvn fmtd) irn prev) kwargs

/-- One refine step of the reference fold: the model's output on the
step's inputs. -/
def refineSpecNext (dvn irn : String) (fR : Dict String → String)
    (kwargs : Dict String) (fmtd prev : String) : String :=
  fR (refineStepInputs dvn irn kwargs fmtd prev)

/-- The ordered outputs of the refine steps of the reference fold,
starting from prior answer `prev`. -/
def refineSpecOuts (dvn irn : String) (fR : Dict String → String)
    (fmt : Document → String) (kwargs : Dict String) :
    List Document → String → List String
  | [], _ => []
  | d :: rest, prev =>
    let o := refineSpecNext dvn irn fR kwargs (fmt d) prev
    o :: refineSpecOuts dvn irn fR fmt kwargs rest o

/-- The final answer of the reference fold: the last refine output, or
the seed when no documents remain. -/
def refineSpecFinal (dvn irn : String) (fR : Dict String → String)
    (fmt : Document → String) (kwargs : Dict String) :
    List Document → String → String
  | [], prev => prev
  | d :: rest, prev =>
    refineSpecFinal dvn irn fR fmt kwargs rest
      (refineSpecNext dvn irn fR kwargs (fmt d) prev)

/-- The model invocations of the refine steps of the reference fold. -/
def refineSpecTrace (dvn irn : String) (fR : Dict String → String)
    (fmt : Document → String) (kwargs : Dict String) :
    List Document → String → List CallRec
  | [], _ => []
  | d :: rest, prev =>
    let inputs := refineStepInputs dvn irn kwargs (fmt d) prev
    CallRec.refine inputs (fR inputs)
      :: refineSpecTrace dvn irn fR fmt kwargs rest (fR inputs)

/-- The sequential-dependency property of a refine trace: each logged
refine call received document `i`'s formatted text under the
document-variable name and exactly the previous step's output under the
prior-answer name, and its own output seeds the next step. -/
def ChainedTrace (dvn irn : String) (fmt : Document → String) :
    String → List Document → List CallRec → Prop
  | _, [], [] => True
  | prev, d :: ds, CallRec.refine inp out :: tr =>
    dictLookup inp dvn = some (fmt d) ∧ dictLookup inp irn = some prev ∧
      ChainedTrace dvn irn fmt out ds tr
  | _, [], _ :: _ => False
  | _, _ :: _, [] => False
  | _, _ :: _, CallRec.initial _ _ :: _ => False

theorem refineSpecOuts_length (dvn irn : String) (fR : Dict String → String)
    (fmt : Document → String) (kwargs : Dict String) :
    ∀ (rest : List Document) (prev : String),
      (refineSpecOuts dvn irn fR fmt kwargs rest prev).length = rest.length := by
  intro rest
  induction rest with
  | nil => intro prev; simp [refineSpecOuts]
  | cons d ds ih => intro prev; simp [refineSpecOuts, ih]

/-- The final answer of the reference fold is the last element of the
outputs list seeded with the initial answer. -/
theorem refineSpecFinal_eq_getLastD (dvn irn : String)
    (fR : Dict String → String) (fmt : Document → String)
    (kwargs : Dict String) :
    ∀ (rest : List Document) (prev : String),
      (refineSpecOuts dvn irn fR fmt kwargs rest prev).getLastD prev =
        refineSpecFinal dvn irn fR fmt kwargs rest prev := by
  intro rest
  induction rest with
  | nil => intro prev; simp [refineSpecOuts, refineSpecFinal]
  | cons d ds ih =>
    intro prev
    simp only [refineSpecOuts, refineSpecFinal, List.getLastD_cons]
    exact ih _

/-- The reference refine trace has the sequential-dependency property
when the caller's kwargs do not shadow the document variable or the
prior-answer variable and the two variable names differ. -/
theorem refineSpecTrace_chained (dvn irn : String)
    (fR : Dict String → String) (fmt : Document → String)
    (kwargs : Dict String) (hne : dvn ≠ irn)
    (hkd : dictLookup kwargs dvn = none)
    (hki : dictLookup kwargs irn = none) :
    ∀ (rest : List Document) (prev : String),
      ChainedTrace dvn irn fmt prev rest
        (refineSpecTrace dvn irn fR fmt kwargs rest prev) := by
  intro rest
  induction rest with
  | nil => intro prev; trivial
  | cons d ds ih =>
    intro prev
    refine ⟨?_, ?_, ih _⟩
    · rw [refineStepInputs, dictLookup_merge_right_none _ _ _ hkd,
        dictLookup_insert_ne _ _ _ _ (fun h => hne h.symm),
        dictLookup_insert_self]
    · rw [refineStepInputs, dictLookup_merge_right_none _ _ _ hki,
        dictLookup_insert_self]

/-- Characterization of the `combine_docs` refine loop when formatting
succeeds on every remaining document and the refine model capability is
total: the loop is exactly the reference fold, and the invocation log
extends by exactly one completed call per document. -/
theorem combineLoop_eq_spec (c : RefineDocumentsChain) (kwargs : Dict String)
    (fR : Dict String → String) (fmt : Document → String)
    (hR : ∀ d, c.refine_llm_chain d = Except.ok (fR d)) :
    ∀ (rest : List Document),
      (∀ d, d ∈ rest → formatDocument c.document_prompt d = Except.ok (fmt d)) →
      ∀ (prev : String) (steps : List String) (log : List CallRec),
      c.combineLoop kwargs rest prev steps log =
        (Except.ok
          (refineSpecFinal c.document_variable_name c.initial_response_name
             fR fmt kwargs rest prev,
           steps ++ refineSpecOuts c.document_variable_name
             c.initial_response_name fR fmt kwargs rest prev),
         log ++ refineSpecTrace c.document_variable_name
           c.initial_response_name fR fmt kwargs rest prev) := by
  intro rest
  induction rest with
  | nil =>
    intro _ prev steps log
    simp [RefineDocumentsChain.combineLoop, refineSpecFinal, refineSpecOuts,
      refineSpecTrace]
  | cons d ds ih =>
    intro hfmt prev steps log
    have hd : formatDocument c.document_prompt d = Except.ok (fmt d) :=
      hfmt d (List.mem_cons_self d ds)
    rw [RefineDocumentsChain.combineLoop,
      RefineDocumentsChain._construct_refine_inputs, hd]
    dsimp only
    rw [hR]
    dsimp only
    rw [ih (fun x hx => hfmt x (List.mem_cons_of_mem d hx))]
    simp only [refineSpecFinal, refineSpecOuts, refineSpecTrace,
      refineSpecNext, refineStepInputs, List.append_assoc, List.singleton_append]

/-- Claim C1: for every non-empty document list and deterministic model
capability, `combine_docs` computes a left fold.  Under the success
hypotheses (the model capabilities are total with behaviors `fI`/`fR`,
formatting succeeds with result `fmt`, and the caller's kwargs shadow
neither special variable, the two variable names being distinct):
the run succeeds; the invocation log starts with the initial call on
document 0's formatted text (`inp0`, whose document-variable entry is
document 0's formatting) followed by the reference fold's refine trace;
that trace is `Chained`: refine step `i` receives document `i` and, as
its prior-answer input, exactly the output of step `i-1`; and the final
result is the last step's output (the last element of the outputs list
seeded with the initial output). -/
theorem refine_combine_docs_left_fold
    (c : RefineDocumentsChain) (d0 : Document) (rest : List Document)
    (kwargs : Dict String) (fI fR : Dict String → String)
    (fmt : Document → String) (inp0 : Dict String) (o0 : String)
    (hne : c.document_variable_name ≠ c.initial_response_name)
    (hkd : dictLookup kwargs c.document_variable_name = none)
    (hki : dictLookup kwargs c.initial_response_name = none)
    (hI : ∀ d, c.initial_llm_chain d = Except.ok (fI d))
    (hR : ∀ d, c.refine_llm_chain d = Except.ok (fR d))
    (hfmt : ∀ d, d ∈ d0 :: rest →
      formatDocument c.document_prompt d = Except.ok (fmt d))
    (hinp0 : inp0 =
      dictMerge (dictInsert [] c.document_variable_name (fmt d0)) kwargs)
    (ho0 : o0 = fI inp0) :
    c.combine_docs (d0 :: rest) kwargs =
      (Except.ok (c._construct_result
          (o0 :: refineSpecOuts c.document_variable_name
            c.initial_response_name fR fmt kwargs rest o0)
          (refineSpecFinal c.document_variable_name c.initial_response_name
            fR fmt kwargs rest o0)),
        CallRec.initial inp0 o0 ::
          refineSpecTrace c.document_variable_name c.initial_response_name
            fR fmt kwargs rest o0) ∧
      dictLookup inp0 c.document_variable_name = some (fmt d0) ∧
      ChainedTrace c.document_variable_name c.initial_response_name fmt o0
        rest (refineSpecTrace c.document_variable_name
          c.initial_response_name fR fmt kwargs rest o0) ∧
      (refineSpecOuts c.document_variable_name c.initial_response_name fR fmt
        kwargs rest o0).getLastD o0 =
        refineSpecFinal c.document_variable_name c.initial_response_name fR
          fmt kwargs rest o0 := by
  refine ⟨?_, ?_, ?_, ?_⟩
  · rw [RefineDocumentsChain.combine_docs,
      RefineDocumentsChain._construct_initial_inputs,
      hfmt d0 (List.mem_cons_self d0 rest)]
    dsimp only
    rw [hI]
    dsimp only
    simp only [List.drop_succ_cons, List.drop_zero]
    rw [combineLoop_eq_spec c kwargs fR fmt hR rest
      (fun x hx => hfmt x (List.mem_cons_of_mem d0 hx)), ← hinp0, ← ho0]
    dsimp only
    simp [List.singleton_append]
  · rw [hinp0, dictLookup_merge_right_none _ _ _ hkd, dictLookup_insert_self]
  · exact refineSpecTrace_chained _ _ _ _ _ hne hkd hki rest o0
  · exact refineSpecFinal_eq_getLastD _ _ _ _ _ rest o0

/-- Witness for C1: the echo chain on documents `["A","B","C"]`.  The
hypotheses are discharged at this concrete instance and the
characterization evaluates to the expected concrete run: outputs
`"I:A"`, `"R(B,I:A)"`, `"R(C,R(B,I:A))"` with the final result equal to
the last step's output. -/
theorem refine_combine_docs_left_fold_witness :
    impChainEx.combine_docs [mkDoc "A", mkDoc "B", mkDoc "C"] [] =
      (Except.ok ("R(C,R(B,I:A))",
        [("intermediate_steps", ["I:A", "R(B,I:A)", "R(C,R(B,I:A))"])]),
       [CallRec.initial [("context", "A")] "I:A",
        CallRec.refine [("context", "B"), ("output", "I:A")] "R(B,I:A)",
        CallRec.refine [("context", "C"), ("output", "R(B,I:A)")]
          "R(C,R(B,I:A))"]) := by
  have h := refine_combine_docs_left_fold impChainEx (mkDoc "A")
    [mkDoc "B", mkDoc "C"] [] (fun d => initPromptEx.format d)
    (fun d => refinePromptEx.format d) (fun d => d.page_content)
    [("context", "A")] "I:A" (by decide) rfl rfl (fun d => rfl)
    (fun d => rfl) (by intro d hd; fin_cases hd <;> rfl) rfl rfl
  rw [h.1]
  rfl

/-!
## Error propagation (claim C7)

`Reaches c kwargs docs remaining res steps log` says: a run of
`combine_docs c docs kwargs` completes the initial call and then refine
calls for every document before `remaining`, with current answer `res`,
collected outputs `steps` and invocation log `log`.  Its two
constructors are exactly the success equations of the source's initial
call and of one loop iteration. -/
inductive Reaches (c : RefineDocumentsChain) (kwargs : Dict String)
    (docs : List Document) :
    List Document → String → List String → List CallRec → Prop where
  | start (d0 : Document) (rest : List Document) (inp : Dict String)
      (o : String) (hdocs : docs = d0 :: rest)
      (hinit : c._construct_initial_inputs docs kwargs = Except.ok inp)
      (hpred : c.initial_llm_chain inp = Except.ok o) :
      Reaches c kwargs docs rest o [o] [CallRec.initial inp o]
  | step (d : Document) (rest : List Document) (res o : String)
      (steps : List String) (log : List CallRec) (base : Dict String)
      (hprev : Reaches c kwargs docs (d :: rest) res steps log)
      (hbase : c._construct_refine_inputs d res = Except.ok base)
      (hpred : c.refine_llm_chain (dictMerge base kwargs) = Except.ok o) :
      Reaches c kwargs docs rest o (steps ++ [o])
        (log ++ [CallRec.refine (dictMerge base kwargs) o])

/-- A reached state determines the run: `combine_docs` equals the loop
continued from that state (with `_construct_result` applied on
success). -/
theorem reaches_combine_docs (c : RefineDocumentsChain)
    (kwargs : Dict String) (docs : List Document) (remaining : List Document)
    (res : String) (steps : List String) (log : List CallRec)
    (h : Reaches c kwargs docs remaining res steps log) :
    c.combine_docs docs kwargs =
      match c.combineLoop kwargs remaining res steps log with
      | (Except.ok (res2, refine_steps), lg) =>
        (Except.ok (c._construct_result refine_steps res2), lg)
      | (Except.error e, lg) => (Except.error e, lg) := by
  induction h with
  | start d0 rest inp o hdocs hinit hpred =>
    rw [RefineDocumentsChain.combine_docs, hinit]
    dsimp only
    rw [hpred]
    dsimp only
    rw [hdocs]
    simp only [List.drop_succ_cons, List.drop_zero]
  | step d rest res o steps log base hprev hbase hpred ih =>
    rw [ih, RefineDocumentsChain.combineLoop, hbase]
    dsimp only
    rw [hpred]

/-- A reached state has processed exactly
`docs.length - remaining.length` documents: one completed model
invocation per processed document. -/
theorem reaches_log_length (c : RefineDocumentsChain)
    (kwargs : Dict String) (docs : List Document) (remaining : List Document)
    (res : String) (steps : List String) (log : List CallRec)
    (h : Reaches c kwargs docs remaining res steps log) :
    log.length + remaining.length = docs.length := by
  induction h with
  | start d0 rest inp o hdocs hinit hpred => simp [hdocs]; omega
  | step d rest res o steps log base hprev hbase hpred ih =>
    simp only [List.length_append, List.length_singleton] at ih ⊢
    simp only [List.length_cons] at ih
    omega

/-- Claim C7: a failure while processing document `k` of a non-empty
list propagates that error to the caller — `combine_docs` returns the
error, no result, and the log of exactly the `k` completed model
invocations (those for documents `0 .. k-1`).  Part 1: the model or
formatting capability raises while processing document 0; the result is
the error with zero completed invocations.  Part 2: a run reaches
document `k` (position `log.length`, with `k + 1 + rest.length =
docs.length`) and the formatting or refine model capability raises
there; the result is that error and the log of the `k = log.length`
completed invocations — in particular, a model failure on the second
document leaves exactly one completed invocation (see the witness). -/
theorem combine_docs_error_propagation :
    (∀ (c : RefineDocumentsChain) (kwargs : Dict String)
      (docs : List Document) (e : Err),
      (c._construct_initial_inputs docs kwargs = Except.error e ∨
        ∃ inp, c._construct_initial_inputs docs kwargs = Except.ok inp ∧
          c.initial_llm_chain inp = Except.error e) →
      c.combine_docs docs kwargs = (Except.error e, [])) ∧
    (∀ (c : RefineDocumentsChain) (kwargs : Dict String)
      (docs : List Document) (d : Document) (rest : List Document)
      (res : String) (steps : List String) (log : List CallRec) (e : Err),
      Reaches c kwargs docs (d :: rest) res steps log →
      (c._construct_refine_inputs d res = Except.error e ∨
        ∃ base, c._construct_refine_inputs d res = Except.ok base ∧
          c.refine_llm_chain (dictMerge base kwargs) = Except.error e) →
      c.combine_docs docs kwargs = (Except.error e, log) ∧
        log.length + (rest.length + 1) = docs.length) := by
  constructor
  · intro c kwargs docs e h
    rcases h with h | ⟨inp, hinp, hpred⟩
    · rw [RefineDocumentsChain.combine_docs, h]
    · rw [RefineDocumentsChain.combine_docs, hinp]
      dsimp only
      rw [hpred]
  · intro c kwargs docs d rest res steps log e hreach hfail
    refine ⟨?_, ?_⟩
    · rw [reaches_combine_docs c kwargs docs (d :: rest) res steps log hreach,
        RefineDocumentsChain.combineLoop]
      rcases hfail with h | ⟨base, hbase, hpred⟩
      · rw [h]
      · rw [hbase]
        dsimp only
        rw [hpred]
    · have := reaches_log_length c kwargs docs (d :: rest) res steps log hreach
      simp only [List.length_cons] at this
      omega

/-- Witness for C7 (spec scenario 8): a model capability that raises on
every refine call, run on two documents.  The caller receives the error
and the log holds exactly one completed invocation — the initial step. -/
theorem combine_docs_error_propagation_witness :
    ({ impChainEx with
        refine_llm_chain := fun _ => Except.error (Err.modelError "boom")
      : RefineDocumentsChain }.combine_docs [mkDoc "A", mkDoc "B"] [] =
      (Except.error (Err.modelError "boom"),
       [CallRec.initial [("context", "A")] "I:A"]) ∧
      [CallRec.initial [("context", "A")] "I:A"].length = 1) := by
  have h := combine_docs_error_propagation.2
    { impChainEx with
        refine_llm_chain := fun _ => Except.error (Err.modelError "boom") }
    [] [mkDoc "A", mkDoc "B"] (mkDoc "B") [] "I:A" ["I:A"]
    [CallRec.initial [("context", "A")] "I:A"] (Err.modelError "boom")
    (Reaches.start (mkDoc "A") [mkDoc "B"] [("context", "A")] "I:A" rfl rfl
      rfl)
    (Or.inr ⟨[("context", "B"), ("output", "I:A")], rfl, rfl⟩)
  exact ⟨h.1, rfl⟩

/-- Claim C5: the result assembler always returns the final answer text
as the first component; the extra-return dict carries the ordered
intermediate-output list under `"intermediate_steps"` exactly when
`return_intermediate_steps` was set at configuration time, and is the
empty dict otherwise — the key is entirely absent, not an empty list;
accordingly `output_keys` advertises `"intermediate_steps"` iff the
flag is set. -/
theorem construct_result_contract (c : RefineDocumentsChain)
    (steps : List String) (res : String) :
    (c._construct_result steps res).1 = res ∧
    (c.return_intermediate_steps = true →
      (c._construct_result steps res).2 = [("intermediate_steps", steps)]) ∧
    (c.return_intermediate_steps = false →
      (c._construct_result steps res).2 = []) ∧
    (c.return_intermediate_steps = false →
      dictLookup (c._construct_result steps res).2 INTERMEDIATE_STEPS_KEY =
        none) ∧
    ("intermediate_steps" ∈ c.output_keys ↔
      c.return_intermediate_steps = true) := by
  cases h : c.return_intermediate_steps <;>
    simp [RefineDocumentsChain._construct_result,
      RefineDocumentsChain.output_keys, h, dictLookup]

/-- Witness for C5: with reporting enabled the extra dict holds the
steps; with reporting disabled it is empty and the final text is still
returned. -/
theorem construct_result_contract_witness :
    (impChainEx._construct_result ["a", "b"] "b").2 =
      [("intermediate_steps", ["a", "b"])] ∧
    (impChainExNoSteps._construct_result ["a", "b"] "b").2 = [] ∧
    (impChainExNoSteps._construct_result ["a", "b"] "b").1 = "b" :=
  ⟨(construct_result_contract impChainEx ["a", "b"] "b").2.1 rfl,
   (construct_result_contract impChainExNoSteps ["a", "b"] "b").2.2.1 rfl,
   (construct_result_contract impChainExNoSteps ["a", "b"] "b").1⟩

/-- Claim C6: construction of the imperative variant fails with a
configuration error — before any document is processed or model
invoked — when (a) an explicitly designated document-variable name is
not among the initial prompt's input variables, or (b) none is
designated and the prompt has more than one input variable; with no
designation and exactly one input variable, that variable is inferred
and construction succeeds.  (The validator inspects only the prompt's
variables, so the error is independent of the model capabilities.) -/
theorem document_variable_name_validation
    (ic rc : Dict String → Except Err String) (irn : String)
    (dp : PromptTemplate) (ris : Bool) :
    (∀ (v : String) (vars : List String), v ∉ vars →
      ∃ msg, mkRefineDocumentsChain ic rc vars (some v) irn dp ris =
        Except.error (Err.valueError msg)) ∧
    (∀ vars : List String, 1 < vars.length →
      ∃ msg, mkRefineDocumentsChain ic rc vars none irn dp ris =
        Except.error (Err.valueError msg)) ∧
    (∀ u : String, mkRefineDocumentsChain ic rc [u] none irn dp ris =
      Except.ok
        { initial_llm_chain := ic, refine_llm_chain := rc,
          document_variable_name := u, initial_response_name := irn,
          document_prompt := dp, return_intermediate_steps := ris }) := by
  refine ⟨?_, ?_, ?_⟩
  · intro v vars hv
    refine ⟨"document_variable_name was not found in llm_chain input_variables",
      ?_⟩
    simp [mkRefineDocumentsChain, get_default_document_variable_name, hv]
  · intro vars hlen
    match vars with
    | [] => simp at hlen
    | [v] => simp at hlen
    | v1 :: v2 :: rest => exact ⟨_, rfl⟩
  · intro u
    rfl

/-- Witness for C6: a designated name absent from the variables fails, a
two-variable prompt with no designation fails, and a one-variable prompt
with no designation infers that variable. -/
theorem document_variable_name_validation_witness :
    ("q" ∉ (["a", "b"] : List String)) ∧
    (∃ msg, mkRefineDocumentsChain impChainEx.initial_llm_chain
      impChainEx.refine_llm_chain ["a", "b"] (some "q") "output"
      DEFAULT_DOCUMENT_PROMPT true = Except.error (Err.valueError msg)) ∧
    (∃ msg, mkRefineDocumentsChain impChainEx.initial_llm_chain
      impChainEx.refine_llm_chain ["a", "b"] none "output"
      DEFAULT_DOCUMENT_PROMPT true = Except.error (Err.valueError msg)) ∧
    (mkRefineDocumentsChain impChainEx.initial_llm_chain
      impChainEx.refine_llm_chain ["context"] none "output"
      DEFAULT_DOCUMENT_PROMPT true =
      Except.ok
        { initial_llm_chain := impChainEx.initial_llm_chain,
          refine_llm_chain := impChainEx.refine_llm_chain,
          document_variable_name := "context",
          initial_response_name := "output",
          document_prompt := DEFAULT_DOCUMENT_PROMPT,
          return_intermediate_steps := true }) :=
  ⟨by decide,
   (document_variable_name_validation impChainEx.initial_llm_chain
     impChainEx.refine_llm_chain "output" DEFAULT_DOCUMENT_PROMPT true).1
     "q" ["a", "b"] (by decide),
   (document_variable_name_validation impChainEx.initial_llm_chain
     impChainEx.refine_llm_chain "output" DEFAULT_DOCUMENT_PROMPT true).2.1
     ["a", "b"] (by decide),
   (document_variable_name_validation impChainEx.initial_llm_chain
     impChainEx.refine_llm_chain "output" DEFAULT_DOCUMENT_PROMPT true).2.2
     "context"⟩

/-- Claim C8: both variants fail loudly on an empty document list,
before any model invocation.  The imperative `combine_docs` raises the
index error of `docs[0]` with an empty invocation log, for every chain
configuration and kwargs; the declarative chain raises the index error
of `inputs[DOCUMENTS_KEY][0]` inside `_get_and_format_doc`, for every
configuration (in particular independently of the model capability).
Neither returns an empty or null result. -/
theorem empty_docs_fail_loudly :
    (∀ (c : RefineDocumentsChain) (kwargs : Dict String),
      c.combine_docs [] kwargs = (Except.error Err.indexError, [])) ∧
    (∀ dc : DeclChain,
      refine_documents_chain dc [(DOCUMENTS_KEY, Val.vdocs [])] =
        Except.error Err.indexError) := by
  constructor
  · intro c kwargs
    rfl
  · intro dc
    rfl

/-- Claim C10: in the imperative variant the caller's extra kwargs are
merged after the step's base inputs (`{**base_inputs, **kwargs}`, source
lines 291 and 344), so an extra named value whose key equals the
document-variable name (or, in a refine step, the prior-answer variable
name) silently replaces the formatted document text (respectively the
prior answer) in the model invocation's inputs. -/
theorem kwargs_override_step_inputs (c : RefineDocumentsChain)
    (docs : List Document) (doc : Document) (res : String)
    (kwargs : Dict String) (v : String) (hnd : DictNodupKeys kwargs) :
    (∀ inp, dictLookup kwargs c.document_variable_name = some v →
      c._construct_initial_inputs docs kwargs = Except.ok inp →
      dictLookup inp c.document_variable_name = some v) ∧
    (∀ base, dictLookup kwargs c.document_variable_name = some v →
      c._construct_refine_inputs doc res = Except.ok base →
      dictLookup (dictMerge base kwargs) c.document_variable_name = some v) ∧
    (∀ base, dictLookup kwargs c.initial_response_name = some v →
      c._construct_refine_inputs doc res = Except.ok base →
      dictLookup (dictMerge base kwargs) c.initial_response_name = some v) := by
  refine ⟨?_, ?_, ?_⟩
  · intro inp hk hok
    cases docs with
    | nil => simp [RefineDocumentsChain._construct_initial_inputs] at hok
    | cons d0 ds =>
      rw [RefineDocumentsChain._construct_initial_inputs] at hok
      cases hfd : formatDocument c.document_prompt d0 with
      | error e => simp [hfd] at hok
      | ok s =>
        simp only [hfd] at hok
        injection hok with hok
        rw [← hok]
        exact dictLookup_merge_right_some kwargs _ _ _ hnd hk
  · intro base hk _
    exact dictLookup_merge_right_some kwargs _ _ _ hnd hk
  · intro base hk _
    exact dictLookup_merge_right_some kwargs _ _ _ hnd hk

/-- Witness for C10: with the extra kwarg `context="OVR"` the initial
inputs carry `"OVR"` instead of document 0's formatted text `"A"`. -/
theorem kwargs_override_step_inputs_witness :
    dictLookup [("context", "OVR")] DOCUMENTS_KEY = some "OVR" ∧
    impChainEx._construct_initial_inputs [mkDoc "A"] [("context", "OVR")] =
      Except.ok [("context", "OVR")] ∧
    dictLookup [("context", "OVR")] "context" = some "OVR" ∧
    ("OVR" : String) ≠ "A" := by
  refine ⟨rfl, rfl, ?_, by decide⟩
  exact (kwargs_override_step_inputs impChainEx [mkDoc "A"] (mkDoc "A") "r"
    [("context", "OVR")] "OVR" (by decide)).1 [("context", "OVR")] rfl rfl

/-- Decidable equality of `Except` results (componentwise). -/
instance {e a : Type} [DecidableEq e] [DecidableEq a] :
    DecidableEq (Except e a) := fun x y =>
  match x, y with
  | Except.ok u, Except.ok v =>
    if h : u = v then isTrue (by rw [h]) else
      isFalse (fun hc => h (Except.ok.inj hc))
  | Except.error u, Except.error v =>
    if h : u = v then isTrue (by rw [h]) else
      isFalse (fun hc => h (Except.error.inj hc))
  | Except.ok _, Except.error _ => isFalse (fun hc => Except.noConfusion hc)
  | Except.error _, Except.ok _ => isFalse (fun hc => Except.noConfusion hc)

/-!
## The declarative variant's document-indexing bug (claims C2, C3, C4, C9)

`_get_and_format_doc` selects the document at index
`len(intermediate_steps)`, but the pipeline records the initial step's
output into `intermediate_steps` only *inside* a later refine step
(`RunnablePassthrough.assign` computes `_update_intermediate_steps` and
`refine_response` from the same incoming dictionary).  At the first
refine step `intermediate_steps` is still absent, so that step formats
document 0 again; every refine step `i` formats document `i-1`, the last
document is never processed, and the last generated output never enters
`intermediate_steps`.  The echo capabilities of `declChainEx` make this
visible in the output strings themselves. -/

/-- Claim C2 (refuted on the declarative variant): on documents
`["X","Y","Z"]` the declarative chain performs 3 model invocations but
formats documents 0, 0, 1 — the first refine step receives document
`"X"` again (its output is `"R(X,I:X)"`, not `"R(Y,I:X)"`), document
`"X"` is processed twice, and document `"Z"` is never formatted (the
string `"Z"` occurs nowhere in the result).  The claim's "each document
`i` is the one formatted for step `i`" fails. -/
theorem declarative_misindexes_documents :
    refine_documents_chain declChainEx
      [(DOCUMENTS_KEY, Val.vdocs [mkDoc "X", mkDoc "Y", mkDoc "Z"])] =
      Except.ok [("output", Val.vstr "R(Y,R(X,I:X))"),
        ("intermediate_steps", Val.vstrs ["I:X", "R(X,I:X)"])] := by decide

/-- Claim C3 (refuted on the declarative variant): on the two-document
list `["P","Q"]` the declarative chain reports an intermediate-steps
list of length 1, not `N = 2` — the last step's output is never appended
(and the single recorded entry stems from a run in which document `"Q"`
was never used). -/
theorem declarative_intermediate_steps_short :
    refine_documents_chain declChainEx
      [(DOCUMENTS_KEY, Val.vdocs [mkDoc "P", mkDoc "Q"])] =
      Except.ok [("output", Val.vstr "R(P,I:P)"),
        ("intermediate_steps", Val.vstrs ["I:P"])] ∧
    (["I:P"] : List String).length ≠
      [mkDoc "P", mkDoc "Q"].length := ⟨by decide, by decide⟩

/-- Claim C4 (refuted on the declarative variant): on documents
`["U","V"]` the result includes the intermediate-steps list `["I:U"]`,
whose last element differs from the final output `"R(U,I:U)"`. -/
theorem declarative_final_not_last_intermediate :
    refine_documents_chain declChainEx
      [(DOCUMENTS_KEY, Val.vdocs [mkDoc "U", mkDoc "V"])] =
      Except.ok [("output", Val.vstr "R(U,I:U)"),
        ("intermediate_steps", Val.vstrs ["I:U"])] ∧
    (["I:U"] : List String).getLastD "" ≠ "R(U,I:U)" := ⟨by decide, by decide⟩

/-- Claim C9 (refuted): the two variants are not functionally
equivalent.  With the same echo model, the same prompts (successfully
composed by `create_refine_documents_chain`) and the same three
documents, the declarative chain returns final output `"R(B,R(A,I:A))"`
with two intermediate outputs, while the imperative chain (intermediate
reporting enabled) returns `"R(C,R(B,I:A))"` with three — both the final
texts and the intermediate lists differ. -/
theorem variants_not_equivalent :
    create_refine_documents_chain llmEx initPromptEx refinePromptEx none =
      Except.ok declChainEx ∧
    refine_documents_chain declChainEx
      [(DOCUMENTS_KEY, Val.vdocs [mkDoc "A", mkDoc "B", mkDoc "C"])] =
      Except.ok [("output", Val.vstr "R(B,R(A,I:A))"),
        ("intermediate_steps", Val.vstrs ["I:A", "R(A,I:A)"])] ∧
    (impChainEx.combine_docs [mkDoc "A", mkDoc "B", mkDoc "C"] []).1 =
      Except.ok ("R(C,R(B,I:A))",
        [("intermediate_steps", ["I:A", "R(B,I:A)", "R(C,R(B,I:A))"])]) ∧
    ("R(B,R(A,I:A))" : String) ≠ "R(C,R(B,I:A))" ∧
    (["I:A", "R(A,I:A)"] : List String) ≠
      ["I:A", "R(B,I:A)", "R(C,R(B,I:A))"] :=
  ⟨rfl, by decide, by decide, by decide, by decide⟩
